import Mathlib

/-!
Verification development for the "poputchiki" ride-sharing bot.

The definitions below are a shallow embedding of the data-access layer
(db.js, current revision) and of the relevant request handlers (index.js)
of the repository.  SQLite tables become Lean lists of records; every SQL
statement of a core operation becomes a pure function on those lists;
the sqlite transaction wrapping a multi-step mutation becomes a single
atomic Lean function returning either an error code or the updated
database.  JavaScript numbers are embedded as rationals (seat counts and
money) and millisecond timestamps as integers; the result of
Date.parse on a stored time string is embedded as an Option Int, where
none stands for a string on which Date.parse is not finite, so that the
Number.isFinite guards of the source translate to a match on the option.
-/

namespace Poputchiki

/-- Booking status: the status column of the bookings table
(booked / cancelled / no_show). -/
inductive BStatus where
  | booked
  | cancelled
  | no_show
deriving DecidableEq

/-- Passenger-plan status: the status column of the passenger_plans table
(active / taken / cancelled / expired). -/
inductive PStatus where
  | active
  | taken
  | cancelled
  | expired
deriving DecidableEq

/-- A row of the users table (the columns the core operations touch).
`tg` embeds the telegram_id key, `no_show_count` the reliability counter,
`is_blocked` the administrator block flag. -/
structure User where
  id : Nat
  tg : Nat
  no_show_count : Nat
  is_blocked : Bool
deriving DecidableEq

/-- A row of the trips table.  `departure_ts` embeds
Date.parse(departure_time): some ms when the stored string parses to a
finite timestamp, none otherwise. -/
structure Trip where
  id : Nat
  driver_id : Nat
  departure_ts : Option Int
  seats_total : ℚ
  seats_available : ℚ
  price_per_seat : ℚ
deriving DecidableEq

/-- A row of the bookings table.  `created_day` embeds
date(created_at, localtime) as an abstract day number. -/
structure Booking where
  id : Nat
  trip_id : Nat
  passenger_id : Nat
  seats_booked : ℚ
  amount_total : ℚ
  driver_amount : ℚ
  app_fee : ℚ
  status : BStatus
  created_day : Int
deriving DecidableEq

/-- A row of the passenger_plans table.  `desired_ts` embeds
Date.parse(desired_time) exactly like Trip.departure_ts. -/
structure Plan where
  id : Nat
  passenger_id : Nat
  desired_ts : Option Int
  seats_needed : ℚ
  status : PStatus
  driver_id : Option Nat
deriving DecidableEq

/-- A row of the driver_payment_proofs table (receipt metadata);
`created_day` embeds date(created_at, localtime). -/
structure PaymentProof where
  driver_id : Nat
  created_day : Int
deriving DecidableEq

/-- The whole SQLite database.  `nextBookingId` models the AUTOINCREMENT
counter of the bookings table (the value lastID would take on the next
insert). -/
structure DB where
  users : List User
  trips : List Trip
  bookings : List Booking
  plans : List Plan
  proofs : List PaymentProof
  nextBookingId : Nat
deriving DecidableEq

/-- The typed failure signals (err.code values) raised by the core
operations in db.js and by the passenger-plan handlers in index.js. -/
inductive ErrCode where
  | TRIP_NOT_FOUND
  | BAD_SEATS
  | NOT_ENOUGH_SEATS
  | PASSENGER_NOT_FOUND
  | BOOKING_NOT_FOUND
  | FORBIDDEN
  | BAD_STATUS
  | TOO_LATE
  | HAS_BOOKINGS
  | PLAN_NOT_FOUND
  | PLAN_UNAVAILABLE
  | ALREADY_TAKEN
  | DRIVER_NOT_FOUND
  | BLOCKED
deriving DecidableEq

/-- SELECT * FROM trips WHERE id = ? (db.get returns the first row). -/
def findTrip (trips : List Trip) (tripId : Nat) : Option Trip :=
  trips.find? fun t => t.id == tripId

/-- SELECT * FROM users WHERE telegram_id = ? (getUserByTelegramId). -/
def findUserByTg (users : List User) (tg : Nat) : Option User :=
  users.find? fun u => u.tg == tg

/-- SELECT * FROM bookings WHERE id = ? (db.get returns the first row). -/
def findBooking (bookings : List Booking) (bookingId : Nat) : Option Booking :=
  bookings.find? fun b => b.id == bookingId

/-- SELECT * FROM passenger_plans WHERE id = ?. -/
def findPlan (plans : List Plan) (planId : Nat) : Option Plan :=
  plans.find? fun p => p.id == planId

/-- UPDATE trips SET seats_available = seats_available + delta WHERE id = ?.
A negative delta embeds the seats_available - ? form used by
createBooking; a positive one the seats_available + ? form used by
cancelBookingByPassenger. -/
def sqlUpdateTripSeats (trips : List Trip) (tripId : Nat) (delta : ℚ) : List Trip :=
  trips.map fun t =>
    if t.id = tripId then { t with seats_available := t.seats_available + delta } else t

/-- UPDATE bookings SET status = ? WHERE id = ?. -/
def sqlSetBookingStatus (bookings : List Booking) (bookingId : Nat) (st : BStatus) :
    List Booking :=
  bookings.map fun b => if b.id = bookingId then { b with status := st } else b

/-- UPDATE users SET no_show_count = no_show_count + 1 WHERE id = ?. -/
def sqlIncNoShow (users : List User) (userId : Nat) : List User :=
  users.map fun u =>
    if u.id = userId then { u with no_show_count := u.no_show_count + 1 } else u

/-- SELECT COUNT(*) FROM bookings WHERE trip_id = ? (any status). -/
def countBookingsForTrip (bookings : List Booking) (tripId : Nat) : Nat :=
  (bookings.filter fun b => b.trip_id == tripId).length

/-- The guard `Number.isFinite(departTs) && now >= departTs` used by
cancelBookingByPassenger, deleteTripByDriver and the plan handlers: an
unparseable time (none) never counts as too late. -/
def tooLate (ts : Option Int) (now : Int) : Bool :=
  match ts with
  | none => false
  | some t => now ≥ t

/-- The service commission percentage APP_FEE_PERCENT (env default 0.10). -/
def APP_FEE_PERCENT : ℚ := 1 / 10

/-- JavaScript Math.round: round half toward positive infinity. -/
def jsRound (x : ℚ) : ℚ := ((⌊x + 1 / 2⌋ : ℤ) : ℚ)

/-- The success value of createBooking: resolve({ booking, trip, passenger }).
`trip` is the row object read at the start of the operation. -/
structure CBResult where
  booking : Booking
  trip : Trip
  passenger : User
deriving DecidableEq

/-- createBooking from db.js (current revision): look up the trip
(TRIP_NOT_FOUND), validate the seat count (BAD_SEATS), check
availability (NOT_ENOUGH_SEATS), look up the passenger
(PASSENGER_NOT_FOUND), then in one transaction insert the booked row
with the computed monetary breakdown and decrement seats_available.
`today` embeds datetime(now, localtime) reduced to its date, stored in
created_at. -/
def createBooking (db : DB) (tripId : Nat) (passengerTg : Nat) (seatsBooked : ℚ)
    (today : Int) : Except ErrCode (CBResult × DB) :=
  match findTrip db.trips tripId with
  | none => .error .TRIP_NOT_FOUND
  | some trip =>
    if seatsBooked ≤ 0 then .error .BAD_SEATS
    else if trip.seats_available < seatsBooked then .error .NOT_ENOUGH_SEATS
    else
      match findUserByTg db.users passengerTg with
      | none => .error .PASSENGER_NOT_FOUND
      | some passenger =>
        let pricePerSeat := trip.price_per_seat
        let amountTotal := pricePerSeat * seatsBooked
        let appFee := jsRound (amountTotal * APP_FEE_PERCENT)
        let driverAmount := amountTotal - appFee
        let booking : Booking :=
          { id := db.nextBookingId
            trip_id := trip.id
            passenger_id := passenger.id
            seats_booked := seatsBooked
            amount_total := amountTotal
            driver_amount := driverAmount
            app_fee := appFee
            status := .booked
            created_day := today }
        let db' : DB :=
          { db with
            bookings := db.bookings ++ [booking]
            trips := sqlUpdateTripSeats db.trips trip.id (-seatsBooked)
            nextBookingId := db.nextBookingId + 1 }
        .ok ({ booking := booking, trip := trip, passenger := passenger }, db')

/-- cancelBookingByPassenger from db.js: the initial SELECT joins the
booking with its trip (a missing trip yields no row, hence
BOOKING_NOT_FOUND), then ownership (FORBIDDEN), status exactly booked
(BAD_STATUS), the departure-time guard (TOO_LATE), and in one
transaction the status flip to cancelled plus the seat restore.  The
resolved value is the row read before the update. -/
def cancelBookingByPassenger (db : DB) (bookingId : Nat) (passengerId : Nat)
    (now : Int) : Except ErrCode (Booking × DB) :=
  match findBooking db.bookings bookingId with
  | none => .error .BOOKING_NOT_FOUND
  | some b =>
    match findTrip db.trips b.trip_id with
    | none => .error .BOOKING_NOT_FOUND
    | some t =>
      if b.passenger_id ≠ passengerId then .error .FORBIDDEN
      else if b.status ≠ .booked then .error .BAD_STATUS
      else if tooLate t.departure_ts now then .error .TOO_LATE
      else
        .ok (b,
          { db with
            bookings := sqlSetBookingStatus db.bookings bookingId .cancelled
            trips := sqlUpdateTripSeats db.trips b.trip_id b.seats_booked })

/-- markBookingNoShow from db.js (current revision): the SELECT joins the
booking with its trip, ownership of the trip is checked (FORBIDDEN), and
then — with no status check — the booking is set to no_show and the
passenger's no_show_count is incremented, in one transaction. -/
def markBookingNoShow (db : DB) (bookingId : Nat) (driverId : Nat) :
    Except ErrCode DB :=
  match findBooking db.bookings bookingId with
  | none => .error .BOOKING_NOT_FOUND
  | some b =>
    match findTrip db.trips b.trip_id with
    | none => .error .BOOKING_NOT_FOUND
    | some t =>
      if t.driver_id ≠ driverId then .error .FORBIDDEN
      else
        .ok { db with
              bookings := sqlSetBookingStatus db.bookings bookingId .no_show
              users := sqlIncNoShow db.users b.passenger_id }

/-- markBookingNoShow from the earlier db.js revision kept in the
repository: identical except that a booking already in status no_show is
answered with a plain success before the transaction (idempotent). -/
def markBookingNoShowLegacy (db : DB) (bookingId : Nat) (driverId : Nat) :
    Except ErrCode DB :=
  match findBooking db.bookings bookingId with
  | none => .error .BOOKING_NOT_FOUND
  | some b =>
    match findTrip db.trips b.trip_id with
    | none => .error .BOOKING_NOT_FOUND
    | some t =>
      if t.driver_id ≠ driverId then .error .FORBIDDEN
      else if b.status = .no_show then .ok db
      else
        .ok { db with
              bookings := sqlSetBookingStatus db.bookings bookingId .no_show
              users := sqlIncNoShow db.users b.passenger_id }

/-- deleteTripByDriver from db.js: trip exists (TRIP_NOT_FOUND), caller
owns it (FORBIDDEN), the departure-time guard (TOO_LATE), zero booking
rows of any status (HAS_BOOKINGS), then DELETE FROM trips WHERE id = ?
and resolve the trip row read at the start. -/
def deleteTripByDriver (db : DB) (tripId : Nat) (driverId : Nat) (now : Int) :
    Except ErrCode (Trip × DB) :=
  match findTrip db.trips tripId with
  | none => .error .TRIP_NOT_FOUND
  | some trip =>
    if trip.driver_id ≠ driverId then .error .FORBIDDEN
    else if tooLate trip.departure_ts now then .error .TOO_LATE
    else if 0 < countBookingsForTrip db.bookings tripId then .error .HAS_BOOKINGS
    else
      .ok (trip, { db with trips := db.trips.filter fun t => !(t.id == tripId) })

/-- The conditional claim UPDATE of the take-plan handler in index.js:
UPDATE passenger_plans SET status = taken, driver_id = ?
WHERE id = ? AND status = active.  Returns the updated table together
with the affected-row count (this.changes). -/
def takePlanWrite (plans : List Plan) (planId : Nat) (driverId : Nat) :
    List Plan × Nat :=
  match plans with
  | [] => ([], 0)
  | p :: ps =>
    let rest := takePlanWrite ps planId driverId
    if p.id = planId ∧ p.status = .active then
      ({ p with status := .taken, driver_id := some driverId } :: rest.1, rest.2 + 1)
    else
      (p :: rest.1, rest.2)

/-- The full take-plan handler from index.js
(/api/driver/passenger-plans/take): driver lookup, block check, plan
lookup (PLAN_NOT_FOUND), status active (PLAN_UNAVAILABLE), desired-time
guard (TOO_LATE), then the conditional update; zero affected rows means
another driver won the race (ALREADY_TAKEN). -/
def takePlan (db : DB) (planId : Nat) (driverTg : Nat) (now : Int) :
    Except ErrCode DB :=
  match findUserByTg db.users driverTg with
  | none => .error .DRIVER_NOT_FOUND
  | some driver =>
    if driver.is_blocked then .error .BLOCKED
    else
      match findPlan db.plans planId with
      | none => .error .PLAN_NOT_FOUND
      | some plan =>
        if plan.status ≠ .active then .error .PLAN_UNAVAILABLE
        else if tooLate plan.desired_ts now then .error .TOO_LATE
        else
          let upd := takePlanWrite db.plans plan.id driver.id
          if upd.2 = 0 then .error .ALREADY_TAKEN
          else .ok { db with plans := upd.1 }

/-- The rows of getDriverDailyStats before aggregation: bookings joined
with their trip, restricted to the given driver and to created_at dates
equal to today. -/
def driverTodayRows (db : DB) (driverId : Nat) (today : Int) : List Booking :=
  db.bookings.filter fun b =>
    (match findTrip db.trips b.trip_id with
     | some t => t.driver_id == driverId
     | none => false) && b.created_day == today

/-- getDriverDailyStats trips_count:
COUNT(DISTINCT CASE WHEN b.status = booked THEN b.trip_id END). -/
def dailyTripsCount (db : DB) (driverId : Nat) (today : Int) : Nat :=
  (((driverTodayRows db driverId today).filter fun b => b.status == BStatus.booked).map
    Booking.trip_id).dedup.length

/-- getDriverDailyStats app_fee_total:
COALESCE(SUM(CASE WHEN b.status = booked THEN b.app_fee ELSE 0 END), 0). -/
def dailyAppFeeTotal (db : DB) (driverId : Nat) (today : Int) : ℚ :=
  (((driverTodayRows db driverId today).filter fun b => b.status == BStatus.booked).map
    Booking.app_fee).sum

/-- hasDriverPaymentProofToday from db.js: at least one payment-proof row
of this driver dated today. -/
def hasDriverPaymentProofToday (db : DB) (driverId : Nat) (today : Int) : Bool :=
  db.proofs.any fun pr => pr.driver_id == driverId && pr.created_day == today

/-- The monetization gate inside the POST /api/trips handler of index.js:
when monetization is off creation is always allowed; when it is on, the
request is refused exactly when tripsToday > 0 and appFeeToday > 0 and
no proof was uploaded today. -/
def tripCreationAllowed (monetizationEnabled : Bool) (db : DB) (driverId : Nat)
    (today : Int) : Bool :=
  if monetizationEnabled then
    let tripsToday := dailyTripsCount db driverId today
    let appFeeToday := dailyAppFeeTotal db driverId today
    let hasProof := hasDriverPaymentProofToday db driverId today
    if 0 < tripsToday ∧ 0 < appFeeToday ∧ hasProof = false then false else true
  else true

/-- One core booking-engine call, with its arguments, as applied against
the shared database by a request handler: the three operations of the
seat-accounting claims. -/
inductive Op where
  | create (tripId passengerTg : Nat) (seats : ℚ) (today : Int)
  | cancel (bookingId passengerId : Nat) (now : Int)
  | noshow (bookingId driverId : Nat)

/-- Run one operation against the database: on success the database
advances to the committed state, on any typed failure the transaction
leaves it unchanged. -/
def applyOp (db : DB) : Op → DB
  | .create tid tg s d =>
    match createBooking db tid tg s d with
    | .ok r => r.2
    | .error _ => db
  | .cancel bid pid now =>
    match cancelBookingByPassenger db bid pid now with
    | .ok r => r.2
    | .error _ => db
  | .noshow bid did =>
    match markBookingNoShow db bid did with
    | .ok db' => db'
    | .error _ => db

/-- Run a sequence of operations in order. -/
def applyOps (db : DB) : List Op → DB
  | [] => db
  | op :: ops => applyOps (applyOp db op) ops

/-- Sum of seats_booked over the bookings of a trip that are currently in
status booked (the seats a trip has handed out and not restored). -/
def bookedSeats (tripId : Nat) : List Booking → ℚ
  | [] => 0
  | b :: bs =>
    (if b.trip_id = tripId ∧ b.status = .booked then b.seats_booked else 0) +
      bookedSeats tripId bs

/-- Whether an operation result is a success. -/
def expOk {α : Type} : Except ErrCode α → Bool
  | .ok _ => true
  | .error _ => false

/-- Inductive invariant of a trip under the booking operations: every
booking of the trip holds positively many seats, and the available seats
plus the outstanding booked seats never exceed the capacity. -/
def SeatInv (db : DB) (tid : Nat) : Prop :=
  (∀ b ∈ db.bookings, b.trip_id = tid → 0 < b.seats_booked) ∧
  ∃ t, findTrip db.trips tid = some t ∧ 0 ≤ t.seats_available ∧
    t.seats_available + bookedSeats tid db.bookings ≤ t.seats_total

/-- A sequence of concurrent take-plan claim attempts against one plan,
reduced to their conditional writes: the precondition reads of the
handlers do not mutate the table, so the interleaving of racing handlers
is fully described by the order in which their conditional updates hit
the table.  Returns the final table and the per-attempt success flags
(affected row count nonzero). -/
def applyTakeWrites (pid : Nat) : List Plan → List Nat → List Plan × List Bool
  | plans, [] => (plans, [])
  | plans, d :: ds =>
    ((applyTakeWrites pid (takePlanWrite plans pid d).1 ds).1,
     decide (0 < (takePlanWrite plans pid d).2) ::
       (applyTakeWrites pid (takePlanWrite plans pid d).1 ds).2)

/-- Projection: the seats_available of the trip object returned by a
createBooking call (none on failure). -/
def returnedTripSeats (r : Except ErrCode (CBResult × DB)) : Option ℚ :=
  match r with
  | .ok (res, _) => some res.trip.seats_available
  | .error _ => none

/-- Projection: the seats_available stored for a trip after a
createBooking call (none on failure). -/
def storedTripSeats (r : Except ErrCode (CBResult × DB)) (tid : Nat) : Option ℚ :=
  match r with
  | .ok (_, db) => (findTrip db.trips tid).map Trip.seats_available
  | .error _ => none

/-- Projection: the no-show counter of the user with the given telegram id
after an operation (none when the operation failed). -/
def noShowCountIn (r : Except ErrCode DB) (tg : Nat) : Option Nat :=
  match r with
  | .ok db => (findUserByTg db.users tg).map User.no_show_count
  | .error _ => none

/-- Projection: the status of a booking after an operation (none when the
operation failed). -/
def bookingStatusIn (r : Except ErrCode DB) (bid : Nat) : Option BStatus :=
  match r with
  | .ok db => (findBooking db.bookings bid).map Booking.status
  | .error _ => none

/-! ### Concrete fixtures for witnesses and counterexamples -/

/-- A driver account. -/
def wDriver : User := { id := 1, tg := 5, no_show_count := 0, is_blocked := false }

/-- A passenger account. -/
def wPassenger : User := { id := 2, tg := 7, no_show_count := 0, is_blocked := false }

/-- A trip of the driver with 3 seats at 100 per seat, departing at 1000. -/
def wTrip : Trip :=
  { id := 1, driver_id := 1, departure_ts := some 1000,
    seats_total := 3, seats_available := 3, price_per_seat := 100 }

/-- A fresh database: the two users and the fresh trip. -/
def wDB : DB :=
  { users := [wDriver, wPassenger], trips := [wTrip], bookings := [], plans := [],
    proofs := [], nextBookingId := 1 }

/-- An empty database. -/
def wEmptyDB : DB :=
  { users := [], trips := [], bookings := [], plans := [], proofs := [],
    nextBookingId := 1 }

/-- The booking row createBooking wDB 1 7 2 0 inserts. -/
def wBooking : Booking :=
  { id := 1, trip_id := 1, passenger_id := 2, seats_booked := 2, amount_total := 200,
    driver_amount := 180, app_fee := 20, status := .booked, created_day := 0 }

/-- The value createBooking wDB 1 7 2 0 resolves with. -/
def wCBResult : CBResult :=
  { booking := wBooking, trip := wTrip, passenger := wPassenger }

/-- The database state after createBooking wDB 1 7 2 0. -/
def wDBAfter : DB :=
  { users := [wDriver, wPassenger], trips := [{ wTrip with seats_available := 1 }],
    bookings := [wBooking], plans := [], proofs := [], nextBookingId := 2 }

/-- wDBAfter with the booking already cancelled. -/
def wCancelledDB : DB :=
  { users := [wDriver, wPassenger], trips := [{ wTrip with seats_available := 3 }],
    bookings := [{ wBooking with status := .cancelled }], plans := [], proofs := [],
    nextBookingId := 2 }

/-- An active passenger plan. -/
def wActivePlan : Plan :=
  { id := 1, passenger_id := 2, desired_ts := some 1000, seats_needed := 1,
    status := .active, driver_id := none }

/-- A plan already taken by the driver. -/
def wTakenPlan : Plan :=
  { id := 1, passenger_id := 2, desired_ts := some 1000, seats_needed := 1,
    status := .taken, driver_id := some 1 }

/-- A trip whose departure_time string does not parse. -/
def wNoTimeTrip : Trip :=
  { id := 3, driver_id := 1, departure_ts := none,
    seats_total := 3, seats_available := 1, price_per_seat := 100 }

/-- A booked booking on the unparseable-time trip. -/
def wNoTimeBooking : Booking :=
  { id := 4, trip_id := 3, passenger_id := 2, seats_booked := 2, amount_total := 200,
    driver_amount := 180, app_fee := 20, status := .booked, created_day := 0 }

/-- An active plan whose desired_time string does not parse. -/
def wNoTimePlan : Plan :=
  { id := 6, passenger_id := 2, desired_ts := none, seats_needed := 1,
    status := .active, driver_id := none }

/-- A database around the unparseable-time entities. -/
def wNoTimeDB : DB :=
  { users := [wDriver, wPassenger], trips := [wNoTimeTrip],
    bookings := [wNoTimeBooking], plans := [wNoTimePlan], proofs := [],
    nextBookingId := 5 }

/-- A second unparseable-time trip with no bookings, deletable at any time. -/
def wNoTimeEmptyTripDB : DB :=
  { users := [wDriver, wPassenger], trips := [wNoTimeTrip], bookings := [],
    plans := [], proofs := [], nextBookingId := 5 }

deriving instance DecidableEq for Except

/-! ### Lookup lemmas: SELECT against an UPDATEd or INSERTed table -/

theorem findTrip_map_of_id (f : Trip → Trip) (hf : ∀ t, (f t).id = t.id)
    (l : List Trip) (tid : Nat) :
    findTrip (l.map f) tid = (findTrip l tid).map f := by
  have hp : ((fun t : Trip => t.id == tid) ∘ f) = fun t : Trip => t.id == tid := by
    funext t
    simp [Function.comp, hf]
  unfold findTrip
  rw [List.find?_map, hp]

theorem findBooking_map_of_id (f : Booking → Booking) (hf : ∀ b, (f b).id = b.id)
    (l : List Booking) (bid : Nat) :
    findBooking (l.map f) bid = (findBooking l bid).map f := by
  have hp : ((fun b : Booking => b.id == bid) ∘ f) = fun b : Booking => b.id == bid := by
    funext b
    simp [Function.comp, hf]
  unfold findBooking
  rw [List.find?_map, hp]

theorem findPlan_map_of_id (f : Plan → Plan) (hf : ∀ p, (f p).id = p.id)
    (l : List Plan) (pid : Nat) :
    findPlan (l.map f) pid = (findPlan l pid).map f := by
  have hp : ((fun p : Plan => p.id == pid) ∘ f) = fun p : Plan => p.id == pid := by
    funext p
    simp [Function.comp, hf]
  unfold findPlan
  rw [List.find?_map, hp]

theorem findTrip_id (l : List Trip) (tid : Nat) (t : Trip)
    (h : findTrip l tid = some t) : t.id = tid := by
  have := List.find?_some h
  simpa using this

theorem findBooking_id (l : List Booking) (bid : Nat) (b : Booking)
    (h : findBooking l bid = some b) : b.id = bid := by
  have := List.find?_some h
  simpa using this

theorem findPlan_id (l : List Plan) (pid : Nat) (p : Plan)
    (h : findPlan l pid = some p) : p.id = pid := by
  have := List.find?_some h
  simpa using this

theorem findTrip_sqlUpdateTripSeats (l : List Trip) (tid tid' : Nat) (d : ℚ) :
    findTrip (sqlUpdateTripSeats l tid' d) tid =
      (findTrip l tid).map fun t =>
        if t.id = tid' then { t with seats_available := t.seats_available + d } else t := by
  unfold sqlUpdateTripSeats
  exact findTrip_map_of_id _ (fun t => by by_cases h : t.id = tid' <;> simp [h]) l tid

/-- Updating the seats of the trip found at an id updates exactly that row
as seen by a subsequent lookup. -/
theorem findTrip_update_same (l : List Trip) (tid : Nat) (t : Trip) (d : ℚ)
    (h : findTrip l tid = some t) :
    findTrip (sqlUpdateTripSeats l tid d) tid =
      some { t with seats_available := t.seats_available + d } := by
  rw [findTrip_sqlUpdateTripSeats, h, Option.map_some']
  rw [if_pos (findTrip_id l tid t h)]

/-- Updating the seats of another trip id leaves the looked-up row alone. -/
theorem findTrip_update_other (l : List Trip) (tid tid' : Nat) (t : Trip) (d : ℚ)
    (hne : tid ≠ tid') (h : findTrip l tid = some t) :
    findTrip (sqlUpdateTripSeats l tid' d) tid = some t := by
  rw [findTrip_sqlUpdateTripSeats, h, Option.map_some']
  rw [if_neg]
  rw [findTrip_id l tid t h]
  exact hne

theorem findBooking_setStatus (l : List Booking) (bid bid' : Nat) (st : BStatus)
    (b : Booking) (h : findBooking l bid = some b) :
    findBooking (sqlSetBookingStatus l bid' st) bid =
      some (if b.id = bid' then { b with status := st } else b) := by
  unfold sqlSetBookingStatus
  rw [findBooking_map_of_id _ (fun b => by by_cases hb : b.id = bid' <;> simp [hb]), h,
    Option.map_some']

/-- A row found before an INSERT at the end of the table is still the row
found afterwards. -/
theorem findBooking_append (l l' : List Booking) (bid : Nat) (b : Booking)
    (h : findBooking l bid = some b) : findBooking (l ++ l') bid = some b := by
  unfold findBooking at h ⊢
  rw [List.find?_append, h]
  rfl

/-! ### bookedSeats: outstanding booked seats of one trip -/

theorem bookedSeats_append (tid : Nat) (l l' : List Booking) :
    bookedSeats tid (l ++ l') = bookedSeats tid l + bookedSeats tid l' := by
  induction l with
  | nil => simp [bookedSeats]
  | cons b bs ih => simp [bookedSeats, ih]; ring

theorem bookedSeats_cons (tid : Nat) (b : Booking) (l : List Booking) :
    bookedSeats tid (b :: l) =
      (if b.trip_id = tid ∧ b.status = .booked then b.seats_booked else 0) +
        bookedSeats tid l := rfl

theorem sqlSetBookingStatus_cons (b : Booking) (l : List Booking) (bid : Nat)
    (st : BStatus) :
    sqlSetBookingStatus (b :: l) bid st =
      (if b.id = bid then { b with status := st } else b) ::
        sqlSetBookingStatus l bid st := rfl

theorem bookedSeats_nonneg (tid : Nat) (l : List Booking)
    (hpos : ∀ b ∈ l, b.trip_id = tid → 0 < b.seats_booked) :
    0 ≤ bookedSeats tid l := by
  induction l with
  | nil => simp [bookedSeats]
  | cons b bs ih =>
    have hb : (0:ℚ) ≤ if b.trip_id = tid ∧ b.status = .booked then b.seats_booked else 0 := by
      split
      · next h => exact le_of_lt (hpos b (by simp) h.1)
      · exact le_refl 0
    have hbs : 0 ≤ bookedSeats tid bs := ih fun x hx => hpos x (by simp [hx])
    rw [bookedSeats_cons]
    exact add_nonneg hb hbs

theorem bookedSeats_eq_zero (tid : Nat) (l : List Booking)
    (h : ∀ b ∈ l, b.trip_id ≠ tid) : bookedSeats tid l = 0 := by
  induction l with
  | nil => rfl
  | cons b bs ih =>
    have hb : b.trip_id ≠ tid := h b (by simp)
    have hbs := ih fun x hx => h x (by simp [hx])
    rw [bookedSeats_cons, hbs, if_neg (by simp [hb]), add_zero]

/-- Flipping some rows to a non-booked status can only lower the booked
seat total of a trip whose bookings all have positive seat counts. -/
theorem bookedSeats_setStatus_le (tid : Nat) (l : List Booking) (bid : Nat)
    (st : BStatus) (hst : st ≠ .booked)
    (hpos : ∀ b ∈ l, b.trip_id = tid → 0 < b.seats_booked) :
    bookedSeats tid (sqlSetBookingStatus l bid st) ≤ bookedSeats tid l := by
  induction l with
  | nil => exact le_refl _
  | cons b bs ih =>
    have hbs : bookedSeats tid (sqlSetBookingStatus bs bid st) ≤ bookedSeats tid bs :=
      ih fun x hx => hpos x (by simp [hx])
    have hhead :
        (if (if b.id = bid then { b with status := st } else b).trip_id = tid ∧
            (if b.id = bid then { b with status := st } else b).status = .booked then
          (if b.id = bid then { b with status := st } else b).seats_booked else 0) ≤
        (if b.trip_id = tid ∧ b.status = .booked then b.seats_booked else 0) := by
      by_cases hb : b.id = bid
      · rw [if_pos hb]
        split
        · next h => exact absurd h.2 hst
        · split
          · next h => exact le_of_lt (hpos b (by simp) h.1)
          · exact le_refl 0
      · rw [if_neg hb]
    rw [sqlSetBookingStatus_cons, bookedSeats_cons, bookedSeats_cons]
    exact add_le_add hhead hbs

/-- Cancelling (or no-showing) a booked booking of the trip removes at
least its own seats from the booked seat total. -/
theorem bookedSeats_setStatus_found (tid : Nat) (l : List Booking) (bid : Nat)
    (st : BStatus) (b : Booking) (hst : st ≠ .booked)
    (hpos : ∀ x ∈ l, x.trip_id = tid → 0 < x.seats_booked)
    (hfind : findBooking l bid = some b) (htr : b.trip_id = tid)
    (hbk : b.status = .booked) :
    bookedSeats tid (sqlSetBookingStatus l bid st) ≤
      bookedSeats tid l - b.seats_booked := by
  induction l with
  | nil => exact absurd hfind (by simp [findBooking])
  | cons x xs ih =>
    rw [sqlSetBookingStatus_cons, bookedSeats_cons, bookedSeats_cons]
    by_cases hx : x.id = bid
    · have hxb : x = b := by
        have hfx : findBooking (x :: xs) bid = some x :=
          List.find?_cons_of_pos _ (by simpa using hx)
        rw [hfx] at hfind
        exact Option.some.inj hfind
      subst hxb
      have htail : bookedSeats tid (sqlSetBookingStatus xs bid st) ≤ bookedSeats tid xs :=
        bookedSeats_setStatus_le tid xs bid st hst fun y hy => hpos y (by simp [hy])
      have hhead :
          (if (if x.id = bid then { x with status := st } else x).trip_id = tid ∧
              (if x.id = bid then { x with status := st } else x).status = .booked then
            (if x.id = bid then { x with status := st } else x).seats_booked else 0) = 0 := by
        rw [if_pos hx]
        split
        · next h => exact absurd h.2 hst
        · rfl
      rw [hhead, if_pos ⟨htr, hbk⟩, zero_add]
      linarith
    · have hfind2 : findBooking xs bid = some b := by
        have hfx : findBooking (x :: xs) bid = findBooking xs bid :=
          List.find?_cons_of_neg _ (by simpa using hx)
        rw [hfx] at hfind
        exact hfind
      have htail := ih (fun y hy => hpos y (by simp [hy])) hfind2
      rw [if_neg hx]
      linarith

/-- Positivity of per-trip seat counts survives a status update. -/
theorem pos_setStatus (tid : Nat) (l : List Booking) (bid : Nat) (st : BStatus)
    (hpos : ∀ b ∈ l, b.trip_id = tid → 0 < b.seats_booked) :
    ∀ b ∈ sqlSetBookingStatus l bid st, b.trip_id = tid → 0 < b.seats_booked := by
  intro b hb htr
  obtain ⟨x, hx, rfl⟩ := List.mem_map.mp hb
  by_cases h : x.id = bid
  · simp only [h, if_pos] at htr ⊢
    exact hpos x hx htr
  · simp only [h, if_neg, if_false] at htr ⊢
    exact hpos x hx htr

/-! ### Inversion lemmas: what a successful operation did -/

/-- Inversion of a successful createBooking: which rows were read, which
checks passed, and the exact committed state. -/
theorem createBooking_ok (db : DB) (tid tg : Nat) (s : ℚ) (day : Int)
    (r : CBResult) (db' : DB)
    (h : createBooking db tid tg s day = .ok (r, db')) :
    findTrip db.trips tid = some r.trip ∧
    findUserByTg db.users tg = some r.passenger ∧
    0 < s ∧ s ≤ r.trip.seats_available ∧
    r.booking =
      { id := db.nextBookingId
        trip_id := r.trip.id
        passenger_id := r.passenger.id
        seats_booked := s
        amount_total := r.trip.price_per_seat * s
        driver_amount := r.trip.price_per_seat * s -
          jsRound (r.trip.price_per_seat * s * APP_FEE_PERCENT)
        app_fee := jsRound (r.trip.price_per_seat * s * APP_FEE_PERCENT)
        status := .booked
        created_day := day } ∧
    db' =
      { db with
        bookings := db.bookings ++ [r.booking]
        trips := sqlUpdateTripSeats db.trips r.trip.id (-s)
        nextBookingId := db.nextBookingId + 1 } := by
  unfold createBooking at h
  cases hft : findTrip db.trips tid with
  | none => rw [hft] at h; cases h
  | some trip =>
    rw [hft] at h
    dsimp only at h
    by_cases hs : s ≤ 0
    · rw [if_pos hs] at h; cases h
    · rw [if_neg hs] at h
      by_cases hav : trip.seats_available < s
      · rw [if_pos hav] at h; cases h
      · rw [if_neg hav] at h
        cases hfu : findUserByTg db.users tg with
        | none => rw [hfu] at h; cases h
        | some passenger =>
          rw [hfu] at h
          simp only [Except.ok.injEq, Prod.mk.injEq] at h
          obtain ⟨hr, hdb⟩ := h
          subst hdb
          subst hr
          exact ⟨rfl, rfl, not_le.mp hs, not_lt.mp hav, rfl, rfl⟩

/-- Inversion of a successful cancelBookingByPassenger. -/
theorem cancelBooking_ok (db : DB) (bid pid : Nat) (now : Int)
    (b : Booking) (db' : DB)
    (h : cancelBookingByPassenger db bid pid now = .ok (b, db')) :
    findBooking db.bookings bid = some b ∧
    (∃ t, findTrip db.trips b.trip_id = some t ∧ tooLate t.departure_ts now = false) ∧
    b.passenger_id = pid ∧ b.status = .booked ∧
    db' =
      { db with
        bookings := sqlSetBookingStatus db.bookings bid .cancelled
        trips := sqlUpdateTripSeats db.trips b.trip_id b.seats_booked } := by
  unfold cancelBookingByPassenger at h
  cases hfb : findBooking db.bookings bid with
  | none => rw [hfb] at h; cases h
  | some b0 =>
    rw [hfb] at h
    dsimp only at h
    cases hft : findTrip db.trips b0.trip_id with
    | none => rw [hft] at h; cases h
    | some t =>
      rw [hft] at h
      dsimp only at h
      by_cases hown : b0.passenger_id ≠ pid
      · rw [if_pos hown] at h; cases h
      · rw [if_neg hown] at h
        by_cases hst : b0.status ≠ .booked
        · rw [if_pos hst] at h; cases h
        · rw [if_neg hst] at h
          by_cases htl : tooLate t.departure_ts now = true
          · rw [if_pos htl] at h; cases h
          · rw [if_neg htl] at h
            simp only [Except.ok.injEq, Prod.mk.injEq] at h
            obtain ⟨hb, hdb⟩ := h
            subst hb
            exact ⟨rfl, ⟨t, hft, Bool.eq_false_iff.mpr htl⟩,
              not_not.mp hown, not_not.mp hst, hdb.symm⟩

/-- Inversion of a successful markBookingNoShow (current revision). -/
theorem markNoShow_ok (db : DB) (bid did : Nat) (db' : DB)
    (h : markBookingNoShow db bid did = .ok db') :
    ∃ b, findBooking db.bookings bid = some b ∧
      (∃ t, findTrip db.trips b.trip_id = some t ∧ t.driver_id = did) ∧
      db' =
        { db with
          bookings := sqlSetBookingStatus db.bookings bid .no_show
          users := sqlIncNoShow db.users b.passenger_id } := by
  unfold markBookingNoShow at h
  cases hfb : findBooking db.bookings bid with
  | none => rw [hfb] at h; cases h
  | some b =>
    rw [hfb] at h
    dsimp only at h
    cases hft : findTrip db.trips b.trip_id with
    | none => rw [hft] at h; cases h
    | some t =>
      rw [hft] at h
      dsimp only at h
      by_cases hdr : t.driver_id ≠ did
      · rw [if_pos hdr] at h; cases h
      · rw [if_neg hdr] at h
        simp only [Except.ok.injEq] at h
        exact ⟨b, rfl, ⟨t, hft, not_not.mp hdr⟩, h.symm⟩

/-- Inversion of a successful deleteTripByDriver. -/
theorem deleteTrip_ok (db : DB) (tid did : Nat) (now : Int)
    (t : Trip) (db' : DB)
    (h : deleteTripByDriver db tid did now = .ok (t, db')) :
    findTrip db.trips tid = some t ∧ t.driver_id = did ∧
    tooLate t.departure_ts now = false ∧
    countBookingsForTrip db.bookings tid = 0 ∧
    db' = { db with trips := db.trips.filter fun x => !(x.id == tid) } := by
  unfold deleteTripByDriver at h
  cases hft : findTrip db.trips tid with
  | none => rw [hft] at h; cases h
  | some trip =>
    rw [hft] at h
    dsimp only at h
    by_cases hdr : trip.driver_id ≠ did
    · rw [if_pos hdr] at h; cases h
    · rw [if_neg hdr] at h
      by_cases htl : tooLate trip.departure_ts now = true
      · rw [if_pos htl] at h; cases h
      · rw [if_neg htl] at h
        by_cases hcnt : 0 < countBookingsForTrip db.bookings tid
        · rw [if_pos hcnt] at h; cases h
        · rw [if_neg hcnt] at h
          simp only [Except.ok.injEq, Prod.mk.injEq] at h
          obtain ⟨ht, hdb⟩ := h
          subst ht
          exact ⟨rfl, not_not.mp hdr, Bool.eq_false_iff.mpr htl,
            Nat.eq_zero_of_not_pos hcnt, hdb.symm⟩

/-- Inversion of a successful takePlan handler call. -/
theorem takePlan_ok (db : DB) (pid dtg : Nat) (now : Int) (db' : DB)
    (h : takePlan db pid dtg now = .ok db') :
    ∃ driver plan, findUserByTg db.users dtg = some driver ∧
      driver.is_blocked = false ∧
      findPlan db.plans pid = some plan ∧ plan.status = .active ∧
      db' = { db with plans := (takePlanWrite db.plans plan.id driver.id).1 } := by
  unfold takePlan at h
  cases hfu : findUserByTg db.users dtg with
  | none => rw [hfu] at h; cases h
  | some driver =>
    rw [hfu] at h
    dsimp only at h
    by_cases hbl : driver.is_blocked = true
    · rw [if_pos hbl] at h; cases h
    · rw [if_neg hbl] at h
      cases hfp : findPlan db.plans pid with
      | none => rw [hfp] at h; cases h
      | some plan =>
        rw [hfp] at h
        dsimp only at h
        by_cases hst : plan.status ≠ .active
        · rw [if_pos hst] at h; cases h
        · rw [if_neg hst] at h
          by_cases htl : tooLate plan.desired_ts now = true
          · rw [if_pos htl] at h; cases h
          · rw [if_neg htl] at h
            by_cases hch : (takePlanWrite db.plans plan.id driver.id).2 = 0
            · rw [if_pos hch] at h; cases h
            · rw [if_neg hch] at h
              simp only [Except.ok.injEq] at h
              exact ⟨driver, plan, rfl, Bool.eq_false_iff.mpr hbl, rfl,
                not_not.mp hst, h.symm⟩

/-! ### The seat-accounting invariant of one trip -/

theorem seatInv_createBooking (db : DB) (tid a tg : Nat) (s : ℚ) (day : Int)
    (r : CBResult) (db' : DB)
    (h : createBooking db a tg s day = .ok (r, db'))
    (hInv : SeatInv db tid) : SeatInv db' tid := by
  obtain ⟨hft, hfu, hs, hav, hbk, hdb⟩ := createBooking_ok db a tg s day r db' h
  obtain ⟨hpos, t0, hfind0, h0, hsum⟩ := hInv
  subst hdb
  have htid : r.trip.id = a := findTrip_id _ _ _ hft
  constructor
  · intro b hb htr
    rcases List.mem_append.mp hb with hb | hb
    · exact hpos b hb htr
    · have hbb : b = r.booking := by simpa using hb
      subst hbb
      rw [hbk]
      exact hs
  · by_cases hcase : a = tid
    · have hidt : r.trip.id = tid := htid.trans hcase
      have ht0 : t0 = r.trip := by
        rw [hcase] at hft
        rw [hfind0] at hft
        exact Option.some.inj hft
      have hav0 : s ≤ t0.seats_available := by rw [ht0]; exact hav
      have hnew : findTrip (sqlUpdateTripSeats db.trips r.trip.id (-s)) tid =
          some { t0 with seats_available := t0.seats_available + (-s) } := by
        rw [hidt]
        exact findTrip_update_same db.trips tid t0 (-s) hfind0
      refine ⟨_, hnew, ?_, ?_⟩
      · dsimp only
        linarith
      · dsimp only
        rw [bookedSeats_append]
        have hone : bookedSeats tid [r.booking] = s := by
          rw [bookedSeats_cons, hbk]
          dsimp only
          rw [if_pos ⟨hidt, rfl⟩]
          simp [bookedSeats]
        rw [hone]
        linarith
    · have hnew : findTrip (sqlUpdateTripSeats db.trips r.trip.id (-s)) tid = some t0 :=
        findTrip_update_other db.trips tid r.trip.id t0 (-s)
          (fun he => hcase (htid.symm.trans he.symm)) hfind0
      refine ⟨t0, hnew, h0, ?_⟩
      dsimp only
      rw [bookedSeats_append]
      have hzero : bookedSeats tid [r.booking] = 0 := by
        rw [bookedSeats_cons, hbk]
        dsimp only
        rw [if_neg (fun hc => hcase (htid.symm.trans hc.1))]
        simp [bookedSeats]
      rw [hzero]
      linarith

theorem seatInv_cancelBooking (db : DB) (tid bid pid : Nat) (now : Int)
    (b : Booking) (db' : DB)
    (h : cancelBookingByPassenger db bid pid now = .ok (b, db'))
    (hInv : SeatInv db tid) : SeatInv db' tid := by
  obtain ⟨hfb, ⟨t, hft, _⟩, hown, hst, hdb⟩ := cancelBooking_ok db bid pid now b db' h
  obtain ⟨hpos, t0, hfind0, h0, hsum⟩ := hInv
  subst hdb
  have hbmem : b ∈ db.bookings := List.mem_of_find?_eq_some hfb
  constructor
  · exact pos_setStatus tid db.bookings bid .cancelled hpos
  · by_cases hcase : b.trip_id = tid
    · have ht0 : t = t0 := by
        rw [hcase, hfind0] at hft
        exact (Option.some.inj hft).symm
      subst ht0
      have hnew : findTrip (sqlUpdateTripSeats db.trips b.trip_id b.seats_booked) tid =
          some { t with seats_available := t.seats_available + b.seats_booked } := by
        rw [hcase]
        exact findTrip_update_same db.trips tid t b.seats_booked hfind0
      refine ⟨_, hnew, ?_, ?_⟩
      · have hsb : 0 < b.seats_booked := hpos b hbmem hcase
        dsimp only
        linarith
      · have hsub := bookedSeats_setStatus_found tid db.bookings bid .cancelled b
          (by decide) hpos hfb hcase hst
        dsimp only
        linarith
    · have hnew : findTrip (sqlUpdateTripSeats db.trips b.trip_id b.seats_booked) tid =
          some t0 :=
        findTrip_update_other db.trips tid b.trip_id t0 b.seats_booked
          (fun he => hcase he.symm) hfind0
      refine ⟨t0, hnew, h0, ?_⟩
      have hle := bookedSeats_setStatus_le tid db.bookings bid .cancelled (by decide) hpos
      linarith

theorem seatInv_noShow (db : DB) (tid bid did : Nat) (db' : DB)
    (h : markBookingNoShow db bid did = .ok db')
    (hInv : SeatInv db tid) : SeatInv db' tid := by
  obtain ⟨b, hfb, ⟨t, hft, hdr⟩, hdb⟩ := markNoShow_ok db bid did db' h
  obtain ⟨hpos, t0, hfind0, h0, hsum⟩ := hInv
  subst hdb
  refine ⟨pos_setStatus tid db.bookings bid .no_show hpos, t0, hfind0, h0, ?_⟩
  have hle := bookedSeats_setStatus_le tid db.bookings bid .no_show (by decide) hpos
  linarith

theorem seatInv_applyOp (db : DB) (tid : Nat) (op : Op) (hInv : SeatInv db tid) :
    SeatInv (applyOp db op) tid := by
  cases op with
  | create a tg s day =>
    cases h : createBooking db a tg s day with
    | ok r =>
      have hred : applyOp db (.create a tg s day) = r.2 := by
        simp only [applyOp]
        rw [h]
      rw [hred]
      exact seatInv_createBooking db tid a tg s day r.1 r.2 (by rw [h]) hInv
    | error e =>
      have hred : applyOp db (.create a tg s day) = db := by
        simp only [applyOp]
        rw [h]
      rw [hred]
      exact hInv
  | cancel bid pid now =>
    cases h : cancelBookingByPassenger db bid pid now with
    | ok r =>
      have hred : applyOp db (.cancel bid pid now) = r.2 := by
        simp only [applyOp]
        rw [h]
      rw [hred]
      exact seatInv_cancelBooking db tid bid pid now r.1 r.2 (by rw [h]) hInv
    | error e =>
      have hred : applyOp db (.cancel bid pid now) = db := by
        simp only [applyOp]
        rw [h]
      rw [hred]
      exact hInv
  | noshow bid did =>
    cases h : markBookingNoShow db bid did with
    | ok db2 =>
      have hred : applyOp db (.noshow bid did) = db2 := by
        simp only [applyOp]
        rw [h]
      rw [hred]
      exact seatInv_noShow db tid bid did db2 h hInv
    | error e =>
      have hred : applyOp db (.noshow bid did) = db := by
        simp only [applyOp]
        rw [h]
      rw [hred]
      exact hInv

theorem seatInv_applyOps (db : DB) (tid : Nat) (ops : List Op) (hInv : SeatInv db tid) :
    SeatInv (applyOps db ops) tid := by
  induction ops generalizing db with
  | nil => exact hInv
  | cons op ops ih => exact ih (applyOp db op) (seatInv_applyOp db tid op hInv)

/-! ### Claims -/

/-- C1: for every trip, 0 <= seats_available <= seats_total holds at all
times: starting from a freshly created trip (seats_available =
seats_total, no booking rows yet), no sequence of createBooking,
cancelBookingByPassenger and markBookingNoShow calls — with any
arguments, against any trip — drives the trip's seats_available below 0
or above seats_total, even when the seats requested across createBooking
calls sum beyond capacity. -/
theorem claim1_seat_bounds (db : DB) (tid : Nat) (t : Trip) (ops : List Op)
    (hfind : findTrip db.trips tid = some t)
    (hfresh : t.seats_available = t.seats_total)
    (htot : 0 ≤ t.seats_total)
    (hnob : ∀ b ∈ db.bookings, b.trip_id ≠ tid) :
    ∃ t', findTrip (applyOps db ops).trips tid = some t' ∧
      0 ≤ t'.seats_available ∧ t'.seats_available ≤ t'.seats_total := by
  have hInv : SeatInv db tid := by
    refine ⟨fun b hb htid => absurd htid (hnob b hb), t, hfind, ?_, ?_⟩
    · rw [hfresh]
      exact htot
    · rw [bookedSeats_eq_zero tid db.bookings hnob, add_zero, hfresh]
  obtain ⟨hpos, t', hfind', h0, hsum⟩ := seatInv_applyOps db tid ops hInv
  have hbs := bookedSeats_nonneg tid (applyOps db ops).bookings hpos
  exact ⟨t', hfind', h0, by linarith⟩

/-- Witness for C1: a concrete overbooking-heavy run — book 2 of 3 seats,
cancel, mark no-show, then try to book 3 and 1 more — stays within
bounds. -/
theorem claim1_witness :
    ∃ t', findTrip (applyOps wDB
      [Op.create 1 7 2 0, Op.cancel 1 2 500, Op.noshow 1 1,
       Op.create 1 7 3 0, Op.create 1 7 1 0]).trips 1 = some t' ∧
      0 ≤ t'.seats_available ∧ t'.seats_available ≤ t'.seats_total :=
  claim1_seat_bounds wDB 1 wTrip
    [Op.create 1 7 2 0, Op.cancel 1 2 500, Op.noshow 1 1,
     Op.create 1 7 3 0, Op.create 1 7 1 0]
    (by decide) (by decide) (by decide) (by decide)

/-- Concrete evaluation of createBooking on the fixture database: books 2
of the 3 seats of wTrip for wPassenger. -/
theorem wRun : createBooking wDB 1 7 2 0 = .ok (wCBResult, wDBAfter) := by
  norm_num [createBooking, wDB, wTrip, wDriver, wPassenger, wCBResult, wBooking, wDBAfter,
    findTrip, findUserByTg, List.find?, sqlUpdateTripSeats, jsRound, APP_FEE_PERCENT,
    Except.ok.injEq, Prod.mk.injEq]
  rfl

/-- C2 counterexample: the claim says the returned trip reflects the
decrement.  On a fresh 3-seat trip, booking 2 seats stores
seats_available = 1 but the resolved trip object still carries the
pre-update value 3: the operation resolves the trip row it read before
the UPDATE. -/
theorem claim2_counterexample :
    returnedTripSeats (createBooking wDB 1 7 2 0) = some 3 ∧
    storedTripSeats (createBooking wDB 1 7 2 0) 1 = some 1 := by
  rw [wRun]
  decide

/-- C2 (amended): every successful createBooking inserts exactly one new
booked row carrying the computed monetary breakdown, decrements the
stored trip's seats_available by seatsRequested, and returns the
enriched booking, the passenger record, and the trip row as read before
the update (its seats_available does not reflect the decrement). -/
theorem claim2_createBooking_success (db : DB) (tid tg : Nat) (s : ℚ) (day : Int)
    (r : CBResult) (db' : DB)
    (h : createBooking db tid tg s day = .ok (r, db')) :
    ∃ t p, findTrip db.trips tid = some t ∧ findUserByTg db.users tg = some p ∧
      r.trip = t ∧ r.passenger = p ∧
      r.booking.status = .booked ∧
      r.booking.trip_id = tid ∧
      r.booking.passenger_id = p.id ∧
      r.booking.seats_booked = s ∧
      r.booking.amount_total = t.price_per_seat * s ∧
      r.booking.app_fee = jsRound (t.price_per_seat * s * APP_FEE_PERCENT) ∧
      r.booking.driver_amount = r.booking.amount_total - r.booking.app_fee ∧
      db'.bookings = db.bookings ++ [r.booking] ∧
      db'.users = db.users ∧
      findTrip db'.trips tid = some { t with seats_available := t.seats_available - s } ∧
      r.trip.seats_available = t.seats_available := by
  obtain ⟨hft, hfu, hs, hav, hbk, hdb⟩ := createBooking_ok db tid tg s day r db' h
  have htid : r.trip.id = tid := findTrip_id _ _ _ hft
  subst hdb
  have hupd : findTrip (sqlUpdateTripSeats db.trips r.trip.id (-s)) tid =
      some { r.trip with seats_available := r.trip.seats_available + (-s) } := by
    rw [htid]
    exact findTrip_update_same db.trips tid r.trip (-s) hft
  rw [← sub_eq_add_neg] at hupd
  exact ⟨r.trip, r.passenger, hft, hfu, rfl, rfl, by rw [hbk], by rw [hbk]; exact htid,
    by rw [hbk], by rw [hbk], by rw [hbk], by rw [hbk], by rw [hbk], rfl, rfl, hupd, rfl⟩

/-- Witness for C2 (amended) at the concrete fixture booking. -/
theorem claim2_witness :
    ∃ t p, findTrip wDB.trips 1 = some t ∧ findUserByTg wDB.users 7 = some p ∧
      wCBResult.trip = t ∧ wCBResult.passenger = p ∧
      wCBResult.booking.status = .booked ∧
      wCBResult.booking.trip_id = 1 ∧
      wCBResult.booking.passenger_id = p.id ∧
      wCBResult.booking.seats_booked = 2 ∧
      wCBResult.booking.amount_total = t.price_per_seat * 2 ∧
      wCBResult.booking.app_fee = jsRound (t.price_per_seat * 2 * APP_FEE_PERCENT) ∧
      wCBResult.booking.driver_amount =
        wCBResult.booking.amount_total - wCBResult.booking.app_fee ∧
      wDBAfter.bookings = wDB.bookings ++ [wCBResult.booking] ∧
      wDBAfter.users = wDB.users ∧
      findTrip wDBAfter.trips 1 =
        some { t with seats_available := t.seats_available - 2 } ∧
      wCBResult.trip.seats_available = t.seats_available :=
  claim2_createBooking_success wDB 1 7 2 0 wCBResult wDBAfter wRun

/-- C3: the spec says markBookingNoShow is idempotent, so two calls by
the authorized driver increment the passenger's no_show_count by exactly
1.  The current revision has no status guard: on a booked fixture, two
calls drive the counter to 2, while the earlier revision kept in the
repository (markBookingNoShowLegacy, with the no_show guard) yields 1
exactly as the spec describes. -/
theorem claim3_noshow_double_increment :
    noShowCountIn ((markBookingNoShow wDBAfter 1 1).bind fun db =>
      markBookingNoShow db 1 1) 7 = some 2 ∧
    noShowCountIn ((markBookingNoShowLegacy wDBAfter 1 1).bind fun db =>
      markBookingNoShowLegacy db 1 1) 7 = some 1 := by decide

/-- C4: for every booking in status booked owned by the calling passenger
whose trip departure is still strictly in the future,
cancelBookingByPassenger flips the status to cancelled and adds the
booking's seats_booked back onto the trip's seats_available exactly
once; a second cancel of the same booking by the same passenger is
rejected with the invalid-status failure at any later time and restores
no further seats (a failed call commits no state change). -/
theorem claim4_cancel_restores_exactly_once (db : DB) (bid pid : Nat) (now : Int)
    (b : Booking) (t : Trip) (ts : Int)
    (hb : findBooking db.bookings bid = some b)
    (ht : findTrip db.trips b.trip_id = some t)
    (hown : b.passenger_id = pid)
    (hst : b.status = .booked)
    (hts : t.departure_ts = some ts)
    (hfut : now < ts) :
    ∃ db', cancelBookingByPassenger db bid pid now = .ok (b, db') ∧
      findTrip db'.trips b.trip_id =
        some { t with seats_available := t.seats_available + b.seats_booked } ∧
      findBooking db'.bookings bid = some { b with status := .cancelled } ∧
      ∀ now2 : Int, cancelBookingByPassenger db' bid pid now2 = .error .BAD_STATUS := by
  have htl : tooLate t.departure_ts now = false := by
    rw [hts]
    simp only [tooLate]
    exact decide_eq_false (not_le.mpr hfut)
  have hrun : cancelBookingByPassenger db bid pid now =
      .ok (b, { db with bookings := sqlSetBookingStatus db.bookings bid .cancelled,
                        trips := sqlUpdateTripSeats db.trips b.trip_id b.seats_booked }) := by
    unfold cancelBookingByPassenger
    rw [hb]
    dsimp only
    rw [ht]
    dsimp only
    rw [if_neg (not_not_intro hown), if_neg (not_not_intro hst),
      if_neg (by rw [htl]; exact Bool.false_ne_true)]
  have hb2 : findBooking (sqlSetBookingStatus db.bookings bid .cancelled) bid =
      some { b with status := .cancelled } := by
    have hx := findBooking_setStatus db.bookings bid bid .cancelled b hb
    rw [if_pos (findBooking_id _ _ _ hb)] at hx
    exact hx
  have ht2 : findTrip (sqlUpdateTripSeats db.trips b.trip_id b.seats_booked) b.trip_id =
      some { t with seats_available := t.seats_available + b.seats_booked } :=
    findTrip_update_same db.trips b.trip_id t b.seats_booked ht
  refine ⟨_, hrun, ht2, hb2, ?_⟩
  intro now2
  unfold cancelBookingByPassenger
  dsimp only
  rw [hb2]
  dsimp only
  rw [ht2]
  dsimp only
  rw [if_neg (not_not_intro hown), if_pos (by intro hc; cases hc)]

/-- Witness for C4: the fixture passenger cancels their 2-seat booking at
time 500, before the departure 1000. -/
theorem claim4_witness :
    ∃ db', cancelBookingByPassenger wDBAfter 1 2 500 = .ok (wBooking, db') ∧
      findTrip db'.trips wBooking.trip_id =
        some { wTrip with seats_available := 1 + wBooking.seats_booked } ∧
      findBooking db'.bookings 1 = some { wBooking with status := .cancelled } ∧
      ∀ now2 : Int, cancelBookingByPassenger db' 1 2 now2 = .error .BAD_STATUS :=
  claim4_cancel_restores_exactly_once wDBAfter 1 2 500 wBooking
    { wTrip with seats_available := 1 } 1000
    (by decide) (by decide) (by decide) (by decide) (by decide) (by decide)

/-- C6 counterexample: on an input violating both the claimed-first
precondition (seatsRequested positive: here 0) and the trip-existence
precondition (empty database), the code answers TRIP_NOT_FOUND, not the
invalid-seat-count failure the claimed order demands. -/
theorem claim6_counterexample :
    createBooking wEmptyDB 1 7 0 0 = .error .TRIP_NOT_FOUND ∧
    ErrCode.TRIP_NOT_FOUND ≠ ErrCode.BAD_SEATS := by decide

/-- C6 (amended): createBooking checks its preconditions in this order,
each with its own failure signal: the trip exists (TRIP_NOT_FOUND), then
seatsRequested is a positive number (BAD_SEATS), then seats_available >=
seatsRequested (NOT_ENOUGH_SEATS), and last the passenger identity
resolves to a known user (PASSENGER_NOT_FOUND); for every input
violating several preconditions, the failure returned is the earliest in
this order, and when all hold the call succeeds. -/
theorem claim6_check_order (db : DB) (tid tg : Nat) (s : ℚ) (day : Int) :
    (findTrip db.trips tid = none →
      createBooking db tid tg s day = .error .TRIP_NOT_FOUND) ∧
    (∀ t, findTrip db.trips tid = some t → s ≤ 0 →
      createBooking db tid tg s day = .error .BAD_SEATS) ∧
    (∀ t, findTrip db.trips tid = some t → 0 < s → t.seats_available < s →
      createBooking db tid tg s day = .error .NOT_ENOUGH_SEATS) ∧
    (∀ t, findTrip db.trips tid = some t → 0 < s → s ≤ t.seats_available →
      findUserByTg db.users tg = none →
      createBooking db tid tg s day = .error .PASSENGER_NOT_FOUND) ∧
    (∀ t u, findTrip db.trips tid = some t → 0 < s → s ≤ t.seats_available →
      findUserByTg db.users tg = some u →
      expOk (createBooking db tid tg s day) = true) := by
  refine ⟨?_, ?_, ?_, ?_, ?_⟩
  · intro h
    unfold createBooking
    rw [h]
  · intro t h hs
    unfold createBooking
    rw [h]
    dsimp only
    rw [if_pos hs]
  · intro t h hs hav
    unfold createBooking
    rw [h]
    dsimp only
    rw [if_neg (not_le.mpr hs), if_pos hav]
  · intro t h hs hav hu
    unfold createBooking
    rw [h]
    dsimp only
    rw [if_neg (not_le.mpr hs), if_neg (not_lt.mpr hav), hu]
  · intro t u h hs hav hu
    unfold createBooking
    rw [h]
    dsimp only
    rw [if_neg (not_le.mpr hs), if_neg (not_lt.mpr hav), hu]
    rfl

/-- Witness for C6 (amended): the trip check fires first on the empty
database, and the fixture booking succeeds when every check passes. -/
theorem claim6_witness :
    createBooking wEmptyDB 1 7 2 0 = .error .TRIP_NOT_FOUND ∧
    expOk (createBooking wDB 1 7 2 0) = true :=
  ⟨(claim6_check_order wEmptyDB 1 7 2 0).1 (by decide),
   (claim6_check_order wDB 1 7 2 0).2.2.2.2 wTrip wPassenger (by decide) (by decide)
     (by decide) (by decide)⟩

/-- The COUNT(*) guard is positive exactly when some booking row (of any
status) references the trip. -/
theorem countBookingsForTrip_pos (l : List Booking) (tid : Nat) :
    0 < countBookingsForTrip l tid ↔ ∃ b ∈ l, b.trip_id = tid := by
  rw [countBookingsForTrip, List.length_pos, Ne, List.filter_eq_nil_iff]
  push_neg
  constructor
  · rintro ⟨b, hb, hbeq⟩
    exact ⟨b, hb, by simpa using hbeq⟩
  · rintro ⟨b, hb, hbeq⟩
    exact ⟨b, hb, by simpa using hbeq⟩

/-- After DELETE FROM trips WHERE id = ?, the trip is no longer found. -/
theorem findTrip_filter_ne (l : List Trip) (tid : Nat) :
    findTrip (l.filter fun t => !(t.id == tid)) tid = none := by
  induction l with
  | nil => rfl
  | cons t ts ih =>
    by_cases h : t.id = tid
    · rw [List.filter_cons_of_neg (by simp [h])]
      exact ih
    · rw [List.filter_cons_of_pos (by simp [h])]
      unfold findTrip at ih ⊢
      rw [List.find?_cons_of_neg _ (by simp [h])]
      exact ih

/-- C7: deleteTripByDriver succeeds exactly when the trip exists, the
caller owns it, the departure-time guard passes and the trip has zero
booking rows of any status; each failing precondition yields its own
code, checked in this order; on success the trip row is removed and the
bookings table is untouched; and a trip referenced by any booking row,
even a cancelled one, is never deleted. -/
theorem claim7_delete_trip (db : DB) (tid did : Nat) (now : Int) :
    (findTrip db.trips tid = none →
      deleteTripByDriver db tid did now = .error .TRIP_NOT_FOUND) ∧
    (∀ t, findTrip db.trips tid = some t → t.driver_id ≠ did →
      deleteTripByDriver db tid did now = .error .FORBIDDEN) ∧
    (∀ t ts, findTrip db.trips tid = some t → t.driver_id = did →
      t.departure_ts = some ts → ts ≤ now →
      deleteTripByDriver db tid did now = .error .TOO_LATE) ∧
    (∀ t, findTrip db.trips tid = some t → t.driver_id = did →
      tooLate t.departure_ts now = false →
      (∃ b ∈ db.bookings, b.trip_id = tid) →
      deleteTripByDriver db tid did now = .error .HAS_BOOKINGS) ∧
    (∀ t, findTrip db.trips tid = some t → t.driver_id = did →
      tooLate t.departure_ts now = false →
      (∀ b ∈ db.bookings, b.trip_id ≠ tid) →
      ∃ db', deleteTripByDriver db tid did now = .ok (t, db') ∧
        findTrip db'.trips tid = none ∧ db'.bookings = db.bookings) ∧
    ((∃ b ∈ db.bookings, b.trip_id = tid) →
      expOk (deleteTripByDriver db tid did now) = false) := by
  refine ⟨?_, ?_, ?_, ?_, ?_, ?_⟩
  · intro h
    unfold deleteTripByDriver
    rw [h]
  · intro t h hdr
    unfold deleteTripByDriver
    rw [h]
    dsimp only
    rw [if_pos hdr]
  · intro t ts h hdr hts hlate
    unfold deleteTripByDriver
    rw [h]
    dsimp only
    rw [if_neg (not_not_intro hdr), if_pos (by rw [hts]; simpa [tooLate] using hlate)]
  · intro t h hdr htl hex
    unfold deleteTripByDriver
    rw [h]
    dsimp only
    rw [if_neg (not_not_intro hdr), if_neg (by rw [htl]; exact Bool.false_ne_true),
      if_pos ((countBookingsForTrip_pos db.bookings tid).mpr hex)]
  · intro t h hdr htl hnob
    have hrun : deleteTripByDriver db tid did now =
        .ok (t, { db with trips := db.trips.filter fun x => !(x.id == tid) }) := by
      unfold deleteTripByDriver
      rw [h]
      dsimp only
      rw [if_neg (not_not_intro hdr), if_neg (by rw [htl]; exact Bool.false_ne_true),
        if_neg (fun hp => by
          rcases (countBookingsForTrip_pos db.bookings tid).mp hp with ⟨b, hb, he⟩
          exact hnob b hb he)]
    exact ⟨_, hrun, findTrip_filter_ne db.trips tid, rfl⟩
  · intro hex
    cases hres : deleteTripByDriver db tid did now with
    | error e => rfl
    | ok r =>
      obtain ⟨hfindr, hdrr, htlr, hcnt, hdbr⟩ :=
        deleteTrip_ok db tid did now r.1 r.2 (by rw [hres])
      have hp := (countBookingsForTrip_pos db.bookings tid).mpr hex
      rw [hcnt] at hp
      exact absurd hp (lt_irrefl 0)

/-- Witness for C7: the fixture driver deletes the fresh, booking-free
trip before departure, and cannot delete the version with a booking row. -/
theorem claim7_witness :
    (∃ db', deleteTripByDriver wDB 1 1 500 = .ok (wTrip, db') ∧
      findTrip db'.trips 1 = none ∧ db'.bookings = wDB.bookings) ∧
    expOk (deleteTripByDriver wDBAfter 1 1 500) = false :=
  ⟨(claim7_delete_trip wDB 1 1 500).2.2.2.2.1 wTrip (by decide) (by decide) (by decide)
     (by decide),
   (claim7_delete_trip wDBAfter 1 1 500).2.2.2.2.2 ⟨wBooking, by decide, by decide⟩⟩

/-- C9 counterexample: the claim says cancelled is terminal, but on a
database whose only booking is cancelled, the owning driver's
markBookingNoShow succeeds and rewrites the status to no_show. -/
theorem claim9_counterexample :
    (findBooking wCancelledDB.bookings 1).map Booking.status = some BStatus.cancelled ∧
    bookingStatusIn (markBookingNoShow wCancelledDB 1 1) 1 = some BStatus.no_show := by
  decide

/-- C9 (amended): the status transitions performed by the core operations
are booked to cancelled (cancelBookingByPassenger), and booked or
cancelled to no_show (markBookingNoShow); no_show is terminal, and a
booking that is not booked is never cancelled — but a cancelled booking
can still be turned into a no_show.  deleteTripByDriver and takePlan
never touch the bookings table. -/
theorem claim9_status_transitions (db : DB) (op : Op) (bid : Nat) (b : Booking)
    (hb : findBooking db.bookings bid = some b) :
    (∃ b', findBooking (applyOp db op).bookings bid = some b' ∧
      (b'.status = b.status ∨
       (b.status = .booked ∧ b'.status = .cancelled) ∨
       ((b.status = .booked ∨ b.status = .cancelled) ∧ b'.status = .no_show))) ∧
    (∀ tid did now t db2, deleteTripByDriver db tid did now = .ok (t, db2) →
      db2.bookings = db.bookings) ∧
    (∀ pid dtg now db2, takePlan db pid dtg now = .ok db2 →
      db2.bookings = db.bookings) := by
  refine ⟨?_, ?_, ?_⟩
  · cases op with
    | create a tg s day =>
      cases h : createBooking db a tg s day with
      | ok r =>
        have hred : applyOp db (.create a tg s day) = r.2 := by
          simp only [applyOp]
          rw [h]
        obtain ⟨hft, hfu, hs, hav, hbk, hdb⟩ := createBooking_ok db a tg s day r.1 r.2
          (by rw [h])
        rw [hred, hdb]
        exact ⟨b, findBooking_append db.bookings [r.1.booking] bid b hb, Or.inl rfl⟩
      | error e =>
        have hred : applyOp db (.create a tg s day) = db := by
          simp only [applyOp]
          rw [h]
        rw [hred]
        exact ⟨b, hb, Or.inl rfl⟩
    | cancel bidOp pid now =>
      cases h : cancelBookingByPassenger db bidOp pid now with
      | ok r =>
        have hred : applyOp db (.cancel bidOp pid now) = r.2 := by
          simp only [applyOp]
          rw [h]
        obtain ⟨hfb, _, _, hst0, hdb⟩ := cancelBooking_ok db bidOp pid now r.1 r.2
          (by rw [h])
        rw [hred, hdb]
        have hx := findBooking_setStatus db.bookings bid bidOp .cancelled b hb
        by_cases hid : b.id = bidOp
        · rw [if_pos hid] at hx
          have hbb : b = r.1 := by
            rw [← findBooking_id db.bookings bid b hb, hid] at hb
            rw [hfb] at hb
            exact (Option.some.inj hb).symm
          refine ⟨_, hx, Or.inr (Or.inl ⟨?_, rfl⟩)⟩
          rw [hbb]
          exact hst0
        · rw [if_neg hid] at hx
          exact ⟨b, hx, Or.inl rfl⟩
      | error e =>
        have hred : applyOp db (.cancel bidOp pid now) = db := by
          simp only [applyOp]
          rw [h]
        rw [hred]
        exact ⟨b, hb, Or.inl rfl⟩
    | noshow bidOp did =>
      cases h : markBookingNoShow db bidOp did with
      | ok db2 =>
        have hred : applyOp db (.noshow bidOp did) = db2 := by
          simp only [applyOp]
          rw [h]
        obtain ⟨b0, hfb0, _, hdb⟩ := markNoShow_ok db bidOp did db2 h
        rw [hred, hdb]
        have hx := findBooking_setStatus db.bookings bid bidOp .no_show b hb
        by_cases hid : b.id = bidOp
        · rw [if_pos hid] at hx
          cases hcs : b.status with
          | booked => exact ⟨_, hx, Or.inr (Or.inr ⟨Or.inl rfl, rfl⟩)⟩
          | cancelled => exact ⟨_, hx, Or.inr (Or.inr ⟨Or.inr rfl, rfl⟩)⟩
          | no_show => exact ⟨_, hx, Or.inl rfl⟩
        · rw [if_neg hid] at hx
          exact ⟨b, hx, Or.inl rfl⟩
      | error e =>
        have hred : applyOp db (.noshow bidOp did) = db := by
          simp only [applyOp]
          rw [h]
        rw [hred]
        exact ⟨b, hb, Or.inl rfl⟩
  · intro tid did now t db2 h
    obtain ⟨_, _, _, _, hdb⟩ := deleteTrip_ok db tid did now t db2 h
    rw [hdb]
  · intro pid dtg now db2 h
    obtain ⟨driver, plan, _, _, _, _, hdb⟩ := takePlan_ok db pid dtg now db2 h
    rw [hdb]

/-- Witness for C9 (amended) at the cancelled-booking fixture under the
no-show operation. -/
theorem claim9_witness :
    (∃ b', findBooking (applyOp wCancelledDB (Op.noshow 1 1)).bookings 1 = some b' ∧
      (b'.status = { wBooking with status := BStatus.cancelled }.status ∨
       ({ wBooking with status := BStatus.cancelled }.status = .booked ∧
         b'.status = .cancelled) ∨
       (({ wBooking with status := BStatus.cancelled }.status = .booked ∨
         { wBooking with status := BStatus.cancelled }.status = .cancelled) ∧
         b'.status = .no_show))) ∧
    (∀ tid did now t db2, deleteTripByDriver wCancelledDB tid did now = .ok (t, db2) →
      db2.bookings = wCancelledDB.bookings) ∧
    (∀ pid dtg now db2, takePlan wCancelledDB pid dtg now = .ok db2 →
      db2.bookings = wCancelledDB.bookings) :=
  claim9_status_transitions wCancelledDB (Op.noshow 1 1) 1
    { wBooking with status := BStatus.cancelled } (by decide)

/-! ### takePlanWrite lemmas: the load-bearing conditional update -/

theorem takePlanWrite_cons (p : Plan) (ps : List Plan) (pid d : Nat) :
    takePlanWrite (p :: ps) pid d =
      if p.id = pid ∧ p.status = .active then
        ({ p with status := .taken, driver_id := some d } :: (takePlanWrite ps pid d).1,
         (takePlanWrite ps pid d).2 + 1)
      else (p :: (takePlanWrite ps pid d).1, (takePlanWrite ps pid d).2) := rfl

/-- A conditional update that affected zero rows changed nothing. -/
theorem takePlanWrite_zero (ps : List Plan) (pid d : Nat)
    (h : (takePlanWrite ps pid d).2 = 0) : (takePlanWrite ps pid d).1 = ps := by
  induction ps with
  | nil => rfl
  | cons p ps ih =>
    rw [takePlanWrite_cons] at h ⊢
    by_cases hc : p.id = pid ∧ p.status = .active
    · rw [if_pos hc] at h
      exact absurd h (Nat.succ_ne_zero _)
    · rw [if_neg hc] at h ⊢
      dsimp only at h ⊢
      rw [ih h]

/-- After any conditional update, no row of the plan is active. -/
theorem takePlanWrite_no_active (ps : List Plan) (pid d : Nat) :
    ∀ q ∈ (takePlanWrite ps pid d).1, q.id = pid → q.status ≠ .active := by
  induction ps with
  | nil =>
    intro q hq
    exact absurd hq (by simp [takePlanWrite])
  | cons p ps ih =>
    intro q hq hid
    rw [takePlanWrite_cons] at hq
    by_cases hc : p.id = pid ∧ p.status = .active
    · rw [if_pos hc] at hq
      dsimp only at hq
      rcases List.mem_cons.mp hq with h | h
      · subst h
        intro hcon
        cases hcon
      · exact ih q h hid
    · rw [if_neg hc] at hq
      dsimp only at hq
      rcases List.mem_cons.mp hq with h | h
      · subst h
        intro hst
        exact hc ⟨hid, hst⟩
      · exact ih q h hid

/-- A conditional update against a plan with no active row affects zero
rows and leaves the table unchanged. -/
theorem takePlanWrite_of_no_active (ps : List Plan) (pid d : Nat)
    (h : ∀ q ∈ ps, q.id = pid → q.status ≠ .active) :
    takePlanWrite ps pid d = (ps, 0) := by
  induction ps with
  | nil => rfl
  | cons p ps ih =>
    rw [takePlanWrite_cons]
    have hp : ¬(p.id = pid ∧ p.status = .active) := fun hc => h p (by simp) hc.1 hc.2
    rw [if_neg hp, ih fun q hq => h q (by simp [hq])]

/-- A conditional update against a plan holding an active row affects at
least one row. -/
theorem takePlanWrite_pos (ps : List Plan) (pid d : Nat) (p : Plan)
    (hmem : p ∈ ps) (hid : p.id = pid) (hact : p.status = .active) :
    0 < (takePlanWrite ps pid d).2 := by
  induction ps with
  | nil => cases hmem
  | cons q qs ih =>
    rw [takePlanWrite_cons]
    by_cases hc : q.id = pid ∧ q.status = .active
    · rw [if_pos hc]
      exact Nat.succ_pos _
    · rw [if_neg hc]
      dsimp only
      rcases List.mem_cons.mp hmem with h | h
      · subst h
        exact absurd ⟨hid, hact⟩ hc
      · exact ih h

/-- A plan already taken is untouched by further conditional updates. -/
theorem takePlanWrite_taken_preserved (ps : List Plan) (pid d : Nat) (p : Plan)
    (hfind : findPlan ps pid = some p) (htaken : p.status = .taken) :
    findPlan (takePlanWrite ps pid d).1 pid = some p := by
  induction ps with
  | nil => exact absurd hfind (by simp [findPlan])
  | cons q qs ih =>
    rw [takePlanWrite_cons]
    by_cases hq : q.id = pid
    · have hqp : q = p := by
        have hf : findPlan (q :: qs) pid = some q :=
          List.find?_cons_of_pos _ (by simpa using hq)
        rw [hf] at hfind
        exact Option.some.inj hfind
      subst hqp
      have hc : ¬(q.id = pid ∧ q.status = .active) := by
        rw [htaken]
        rintro ⟨-, hcon⟩
        cases hcon
      rw [if_neg hc]
      dsimp only
      unfold findPlan
      exact List.find?_cons_of_pos _ (by simpa using hq)
    · have hfind2 : findPlan qs pid = some p := by
        have hf : findPlan (q :: qs) pid = findPlan qs pid :=
          List.find?_cons_of_neg _ (by simpa using hq)
        rw [hf] at hfind
        exact hfind
      by_cases hc : q.id = pid ∧ q.status = .active
      · exact absurd hc.1 hq
      · rw [if_neg hc]
        dsimp only
        unfold findPlan
        rw [List.find?_cons_of_neg _ (by simpa using hq)]
        exact ih hfind2

/-- After a successful claim, every later attempt in the sequence fails. -/
theorem applyTakeWrites_count_zero (pid : Nat) (plans : List Plan) (ds : List Nat)
    (h : ∀ q ∈ plans, q.id = pid → q.status ≠ .active) :
    ((applyTakeWrites pid plans ds).2.count true) = 0 := by
  induction ds generalizing plans with
  | nil => rfl
  | cons d ds ih =>
    have hw := takePlanWrite_of_no_active plans pid d h
    simp only [applyTakeWrites, hw, List.count_cons]
    rw [ih plans h]
    simp

/-- Across any sequence of claim attempts against one plan, at most one
succeeds. -/
theorem applyTakeWrites_count_le_one (pid : Nat) (plans : List Plan) (ds : List Nat) :
    ((applyTakeWrites pid plans ds).2.count true) ≤ 1 := by
  induction ds generalizing plans with
  | nil => exact Nat.zero_le 1
  | cons d ds ih =>
    simp only [applyTakeWrites, List.count_cons]
    by_cases h : 0 < (takePlanWrite plans pid d).2
    · have hz := applyTakeWrites_count_zero pid (takePlanWrite plans pid d).1 ds
        (takePlanWrite_no_active plans pid d)
      rw [hz]
      simp [h]
    · have hd : decide (0 < (takePlanWrite plans pid d).2) = false := decide_eq_false h
      rw [hd]
      simpa using ih (takePlanWrite plans pid d).1

/-- C5: a passenger plan is claimed by at most one driver.  takePlan's
write is the conditional update takePlanWrite, restricted to rows still
active: whenever it affects zero rows (the ALREADY_TAKEN answer of the
handler), the plans table — hence the plan's status and driver_id — is
unchanged; across any sequence of claim writes against the same plan at
most one succeeds; and a plan in status taken never changes driver under
further claim writes. -/
theorem claim5_at_most_one_claim :
    (∀ plans (pid d : Nat), (takePlanWrite plans pid d).2 = 0 →
      (takePlanWrite plans pid d).1 = plans) ∧
    (∀ (pid : Nat) plans (ds : List Nat),
      ((applyTakeWrites pid plans ds).2.count true) ≤ 1) ∧
    (∀ plans (pid d : Nat) p, findPlan plans pid = some p → p.status = .taken →
      findPlan (takePlanWrite plans pid d).1 pid = some p) :=
  ⟨takePlanWrite_zero, applyTakeWrites_count_le_one, takePlanWrite_taken_preserved⟩

/-- Witness for C5: zero-change write on the empty table, three racing
claims on one active plan, and a taken plan surviving a later write. -/
theorem claim5_witness :
    (takePlanWrite [] 1 2).1 = [] ∧
    ((applyTakeWrites 1 [wActivePlan] [3, 4, 5]).2.count true) ≤ 1 ∧
    findPlan (takePlanWrite [wTakenPlan] 1 9).1 1 = some wTakenPlan :=
  ⟨claim5_at_most_one_claim.1 [] 1 2 (by decide),
   claim5_at_most_one_claim.2.1 1 [wActivePlan] [3, 4, 5],
   claim5_at_most_one_claim.2.2 [wTakenPlan] 1 9 wTakenPlan (by decide) (by decide)⟩

/-- C8: the monetization gate before trip creation.  When monetization is
disabled creation is always permitted; when enabled, creation is denied
exactly when the driver has a positive booked-trip count today, a
positive accrued fee today, and no payment-proof record today — and
permitted in every other case. -/
theorem claim8_monetization_gate (en : Bool) (db : DB) (driverId : Nat) (today : Int) :
    (en = false → tripCreationAllowed en db driverId today = true) ∧
    (tripCreationAllowed en db driverId today = false ↔
      en = true ∧ 0 < dailyTripsCount db driverId today ∧
        0 < dailyAppFeeTotal db driverId today ∧
        hasDriverPaymentProofToday db driverId today = false) := by
  cases en with
  | false =>
    refine ⟨fun _ => rfl, ?_⟩
    constructor
    · intro h
      cases h
    · rintro ⟨h, -⟩
      cases h
  | true =>
    refine ⟨fun h => Bool.noConfusion h, ?_⟩
    unfold tripCreationAllowed
    by_cases hc : 0 < dailyTripsCount db driverId today ∧
        0 < dailyAppFeeTotal db driverId today ∧
        hasDriverPaymentProofToday db driverId today = false
    · rw [if_pos rfl, if_pos hc]
      exact ⟨fun _ => ⟨rfl, hc⟩, fun _ => rfl⟩
    · rw [if_pos rfl, if_neg hc]
      exact ⟨fun h => Bool.noConfusion h, fun h => absurd h.2 hc⟩

/-- Witness for C8: with monetization off the fresh-database driver may
create trips; with monetization on, the fixture driver who booked fee 20
today without a proof is denied. -/
theorem claim8_witness :
    tripCreationAllowed false wDB 1 0 = true ∧
    tripCreationAllowed true wDBAfter 1 0 = false :=
  ⟨(claim8_monetization_gate false wDB 1 0).1 rfl,
   (claim8_monetization_gate true wDBAfter 1 0).2.mpr
     ⟨rfl, by decide, by norm_num [dailyAppFeeTotal, driverTodayRows, wDBAfter, wBooking,
        wTrip, wDriver, wPassenger, findTrip, List.find?], by decide⟩⟩

/-- C10 (implicit): for entities whose stored time string does not parse
to a finite timestamp (embedded as none), the strictly-before-departure
check is skipped entirely: with the other preconditions met,
cancelBookingByPassenger, deleteTripByDriver and takePlan succeed at any
current time whatsoever, and in particular never answer TOO_LATE for
such an entity. -/
theorem claim10_unparsed_time_never_too_late :
    (∀ db (bid pid : Nat) (now : Int) b t, findBooking db.bookings bid = some b →
      findTrip db.trips b.trip_id = some t → t.departure_ts = none →
      b.passenger_id = pid → b.status = .booked →
      expOk (cancelBookingByPassenger db bid pid now) = true) ∧
    (∀ db (tid did : Nat) (now : Int) t, findTrip db.trips tid = some t →
      t.departure_ts = none → t.driver_id = did →
      (∀ b ∈ db.bookings, b.trip_id ≠ tid) →
      expOk (deleteTripByDriver db tid did now) = true) ∧
    (∀ db (pid dtg : Nat) (now : Int) d p, findUserByTg db.users dtg = some d →
      d.is_blocked = false → findPlan db.plans pid = some p →
      p.desired_ts = none → p.status = .active →
      expOk (takePlan db pid dtg now) = true) := by
  refine ⟨?_, ?_, ?_⟩
  · intro db bid pid now b t hb ht hdep hown hst
    unfold cancelBookingByPassenger
    rw [hb]
    dsimp only
    rw [ht]
    dsimp only
    rw [if_neg (not_not_intro hown), if_neg (not_not_intro hst),
      if_neg (by rw [hdep]; exact Bool.false_ne_true)]
    rfl
  · intro db tid did now t ht hdep hdr hnob
    unfold deleteTripByDriver
    rw [ht]
    dsimp only
    rw [if_neg (not_not_intro hdr), if_neg (by rw [hdep]; exact Bool.false_ne_true),
      if_neg (fun hp => by
        rcases (countBookingsForTrip_pos db.bookings tid).mp hp with ⟨b, hbm, he⟩
        exact hnob b hbm he)]
    rfl
  · intro db pid dtg now d p hfu hbl hfp hdes hact
    unfold takePlan
    rw [hfu]
    dsimp only
    rw [if_neg (by rw [hbl]; exact Bool.false_ne_true), hfp]
    dsimp only
    rw [if_neg (not_not_intro hact), if_neg (by rw [hdes]; exact Bool.false_ne_true),
      if_neg (Nat.pos_iff_ne_zero.mp (takePlanWrite_pos db.plans p.id d.id p
        (List.mem_of_find?_eq_some hfp) rfl hact))]
    rfl

/-- Witness for C10: on the unparseable-time fixtures, all three
operations succeed at the very late time 1000000. -/
theorem claim10_witness :
    expOk (cancelBookingByPassenger wNoTimeDB 4 2 1000000) = true ∧
    expOk (deleteTripByDriver wNoTimeEmptyTripDB 3 1 1000000) = true ∧
    expOk (takePlan wNoTimeDB 6 5 1000000) = true :=
  ⟨claim10_unparsed_time_never_too_late.1 wNoTimeDB 4 2 1000000 wNoTimeBooking
     wNoTimeTrip (by decide) (by decide) (by decide) (by decide) (by decide),
   claim10_unparsed_time_never_too_late.2.1 wNoTimeEmptyTripDB 3 1 1000000 wNoTimeTrip
     (by decide) (by decide) (by decide) (by decide),
   claim10_unparsed_time_never_too_late.2.2 wNoTimeDB 6 5 1000000 wDriver wNoTimePlan
     (by decide) (by decide) (by decide) (by decide) (by decide)⟩

end Poputchiki
